import Mathlib

/-!
Verification development for the Cloud Run MCP deployment engine.

Each definition in this file is a shallow embedding of a function of the
repository (file and line references are given in the doc comments).
Remote API calls are modelled by explicit oracles: an oracle value records
the outcome each remote call would produce, and the embedded function
computes the control flow of the source over those outcomes.  JavaScript
strings are modelled by `String`, with the character-level operations
(`toLowerCase`, `includes`, `split`, `basename`) reimplemented over
`String.data` so that they evaluate inside the kernel.
-/

namespace CloudRunMCP

/-- JavaScript `String.prototype.toLowerCase` (ASCII-relevant part),
implemented over the character list. -/
def lowerStr (s : String) : String :=
  ⟨s.data.map Char.toLower⟩

/-- Check whether `pat` occurs as a contiguous run inside `l`. -/
def listHasRun (pat l : List Char) : Bool :=
  (List.range (l.length + 1)).any fun i => pat.isPrefixOf (l.drop i)

/-- JavaScript `String.prototype.includes`. -/
def includes (s pat : String) : Bool :=
  listHasRun pat.data s.data

/-- `sub` occurs inside `s`: the propositional form used in the theorems. -/
def strContains (s sub : String) : Prop :=
  ∃ pre post : String, s = pre ++ sub ++ post

/-- A gRPC error as surfaced by the Google Cloud clients: an optional
numeric `code` and a `message`. -/
structure GrpcError where
  code : Option Int
  message : String
  deriving Repr, DecidableEq

/-! ## Retry wrapper (`src/lib/cloud-api/helpers.js`, `callWithRetry`, lines 30-58) -/

/-- `maxRetries` constant of `callWithRetry`. -/
def maxRetries : Nat := 7

/-- Backoff before retry number `n` (n counts retries, starting at 1):
15 s for the first retry, `1s * 2^(n-2)` afterwards.  This is the
`backoff` computation of `callWithRetry`, in milliseconds. -/
def retryBackoffMs (n : Nat) : Nat :=
  if n = 1 then 15000 else 1000 * 2 ^ (n - 2)

/-- The retry loop of `callWithRetry`, started with `retries` retries
already performed.  `attempts i` is the outcome the wrapped operation
produces on its `i`-th invocation (0-indexed).  Returns the final result
together with the list of sleeps (in ms) performed, in order. -/
def callWithRetryFrom (attempts : Nat → Except GrpcError α) (retries : Nat) :
    Except GrpcError α × List Nat :=
  match attempts retries with
  | .ok a => (.ok a, [])
  | .error e =>
    if h : e.code = some 7 ∧ retries < maxRetries then
      let next := callWithRetryFrom attempts (retries + 1)
      (next.1, retryBackoffMs (retries + 1) :: next.2)
    else
      (.error e, [])
termination_by maxRetries - retries
decreasing_by
  exact Nat.sub_succ_lt_self _ _ h.2

/-- `callWithRetry(fn, description)`: run the operation, retrying on
gRPC code 7 (PERMISSION_DENIED) up to `maxRetries` times. -/
def callWithRetry (attempts : Nat → Except GrpcError α) :
    Except GrpcError α × List Nat :=
  callWithRetryFrom attempts 0

/-! ## Billing preflight (`src/lib/cloud-api/helpers.js`, `ensureApisEnabled`, lines 150-193) -/

/-- A billing account as returned by the billing client
(`listBillingAccounts`): `{name, displayName, open}`.  The `open` field is
called `isOpen` here because `open` is a Lean keyword. -/
structure BillingAccount where
  name : String
  displayName : String
  isOpen : Bool
  deriving Repr, DecidableEq

/-- Project billing info as returned by `attachProjectToBillingAccount`. -/
structure ProjectBillingInfo where
  billingEnabled : Bool
  deriving Repr, DecidableEq

/-- The "could not attach" failure message (helpers.js line 168). -/
def billingAttachFailMessage (projectId accountName : String) : String :=
  "Failed to automatically attach project " ++ projectId ++
    " to billing account " ++ accountName ++
    ". Please enable billing manually: https://console.cloud.google.com/billing/linkedaccount?project=" ++
    projectId

/-- The reason string of the non-attachable branch (helpers.js lines 180-187). -/
def billingFailureReason (accounts : List BillingAccount) : String :=
  if accounts.length = 0 then "no billing accounts were found"
  else if accounts.length > 1 then "multiple billing accounts were found"
  else
    "the only available billing account \x27" ++
      ((accounts.headD ⟨"", "", false⟩).displayName) ++ "\x27 is not open"

/-- The "billing could not be enabled automatically" message (helpers.js line 188). -/
def billingNotEnabledMessage (projectId reason : String) : String :=
  "Billing is not enabled for project " ++ projectId ++
    ", and it could not be enabled automatically because " ++ reason ++
    ". Please enable billing to use Google Cloud services: https://console.cloud.google.com/billing/linkedaccount?project=" ++
    projectId

/-- The billing block of `ensureApisEnabled` (helpers.js lines 150-193).
Inputs: the result of `isBillingEnabled`, the accounts returned by
`listBillingAccounts`, and the result `attachProjectToBillingAccount`
would report if called (`none` models a falsy/absent response).  Returns
the outcome of the block together with the number of billing-attachment
mutations issued. -/
def ensureBillingForProject (projectId : String) (billingEnabled : Bool)
    (accounts : List BillingAccount) (attachResult : Option ProjectBillingInfo) :
    Except String Unit × Nat :=
  if billingEnabled then (.ok (), 0)
  else if accounts.length = 1 && (accounts.headD ⟨"", "", false⟩).isOpen then
    let account := accounts.headD ⟨"", "", false⟩
    match attachResult with
    | some info =>
      if info.billingEnabled then (.ok (), 1)
      else (.error (billingAttachFailMessage projectId account.name), 1)
    | none => (.error (billingAttachFailMessage projectId account.name), 1)
  else
    (.error (billingNotEnabledMessage projectId (billingFailureReason accounts)), 0)

/-! ## Build failure reporting (`src/lib/cloud-api/build.js`, `triggerCloudBuild`, lines 187-246) -/

/-- The five terminal build statuses (build.js line 163). -/
def terminalBuildStatuses : List String :=
  ["SUCCESS", "FAILURE", "INTERNAL_ERROR", "TIMEOUT", "CANCELLED"]

/-- A fetched log entry: `entry.data`, which may be absent
(`entry.data || ''` in the source). -/
abbrev LogEntry := Option String

/-- The log-snippet computation of the failure branch (build.js lines
193-244).  `logFetch` is the outcome of `loggingClient.getEntries`
(entries newest first); `.error` models the fetch itself throwing. -/
def buildLogsSnippet (buildId logUrl : String)
    (logFetch : Except String (List LogEntry)) : String :=
  let defaultSnippet := "\n\nRefer to Log URL for full details: " ++ logUrl
  match logFetch with
  | .error _ => defaultSnippet
  | .ok entries =>
    if entries.length > 0 then
      let logLines := entries.reverse.map fun e => e.getD ""
      if logLines.length > 0 then
        "\n\nLast " ++ toString logLines.length ++ " log lines from build " ++
          buildId ++ ":\n" ++ String.intercalate "\n" logLines
      else defaultSnippet
    else defaultSnippet

/-- The terminal-status handling of `triggerCloudBuild` (build.js lines
178-246): on `SUCCESS` return the first built image name, otherwise
throw `Build <id> failed.<snippet>`. -/
def buildCompletionOutcome (status buildId logUrl : String)
    (builtImages : List String) (logFetch : Except String (List LogEntry)) :
    Except String String :=
  if status = "SUCCESS" then .ok (builtImages.headD "")
  else .error ("Build " ++ buildId ++ " failed." ++ buildLogsSnippet buildId logUrl logFetch)

/-! ## Filesystem model and deployment helpers
(`src/lib/deployment/helpers.js` and its sibling revision, claims on
`checkIfDockerFileExists` / `getDeploymentAttrs`) -/

/-- A parsed `package.json` as far as the engine inspects it:
`scripts.start` when present as a string, and the truthiness of
`engines.node`. -/
structure PackageJson where
  start : Option String
  enginesNode : Bool
  deriving Repr, DecidableEq

/-- Content of a file in the filesystem model.  Only the parse
behaviour of a file read as `package.json` matters to the engine:
`packageJson none` is a file whose content does not parse as JSON, and
`other` is any file never read by the modelled code. -/
inductive FileContent where
  | packageJson (pj : Option PackageJson)
  | other
  deriving Repr, DecidableEq

/-- Filesystem model: the set of existing directories and the existing
regular files with their contents, both addressed by full path. -/
structure FileSystem where
  dirs : List String
  files : List (String × FileContent)
  deriving Repr

/-- `fs.statSync(p).isDirectory()` (false also when `statSync` throws). -/
def fsIsDir (fs : FileSystem) (p : String) : Bool :=
  fs.dirs.contains p

/-- Whether a regular file exists at `p`. -/
def fsIsFile (fs : FileSystem) (p : String) : Bool :=
  (fs.files.lookup p).isSome

/-- `fs.existsSync(p)`. -/
def fsExists (fs : FileSystem) (p : String) : Bool :=
  fsIsDir fs p || fsIsFile fs p

/-- `fs.readFileSync(p)` followed by `JSON.parse`: `none` when the read
throws (no such file) or the content is not a parseable `package.json`. -/
def fsReadPackageJson (fs : FileSystem) (p : String) : Option PackageJson :=
  match fs.files.lookup p with
  | some (.packageJson (some pj)) => some pj
  | _ => none

/-- One element of the `files` array of a deploy request: a path string
or a `{filename, content}` object. -/
inductive FileEntry where
  | path (p : String)
  | blob (filename : String) (content : String)
  deriving Repr, DecidableEq

/-- Node `path.basename`, modelled as the characters after the last `/`. -/
def basename (p : String) : String :=
  ⟨(p.data.reverse.takeWhile (· ≠ '/')).reverse⟩

/-- Node `path.join(a, b)` for the joins performed by the engine. -/
def pathJoin (a b : String) : String :=
  a ++ "/" ++ b

/-- `isFolder(files)` (helpers.js lines 26-33): exactly one entry, a
string, naming an existing directory. -/
def isFolder (fs : FileSystem) (files : List FileEntry) : Bool :=
  match files with
  | [.path p] => fsIsDir fs p
  | _ => false

/-- The per-entry test of the flat-list branch of
`checkIfDockerFileExists` (helpers.js lines 50-60): path entries match
when their basename lowercases to `dockerfile`; blob entries only when
the `filename` field is truthy (non-empty) as well. -/
def entryIsDockerfile (f : FileEntry) : Bool :=
  match f with
  | .path s => lowerStr (basename s) == "dockerfile"
  | .blob filename _ => filename != "" && lowerStr (basename filename) == "dockerfile"

/-- `checkIfDockerFileExists(files)` (helpers.js lines 40-62). -/
def checkIfDockerFileExists (fs : FileSystem) (files : List FileEntry) : Bool :=
  if isFolder fs files then
    match files with
    | [.path p] =>
      fsExists fs (pathJoin p "Dockerfile") || fsExists fs (pathJoin p "dockerfile")
    | _ => false
  else
    files.any entryIsDockerfile

/-- Runtime name constant (`RUNTIMES.NODEJS`). -/
def RUNTIMES_NODEJS : String := "nodejs"

/-- Default base image constant (`DEPLOYMENT_CONFIG.DEFAULT_NODE_BASE_IMAGE`). -/
def DEFAULT_NODE_BASE_IMAGE : String := "nodejs22"

/-- `DeploymentAttributes` as produced by `getDeploymentAttrs`. -/
structure DeploymentAttrs where
  runtime : Option String
  cmd : Option (List String)
  args : Option (List String)
  baseImage : Option String
  deriving Repr, DecidableEq

/-- `getEmptyDeploymentAttrs()`. -/
def getEmptyDeploymentAttrs : DeploymentAttrs :=
  { runtime := none, cmd := none, args := none, baseImage := none }

/-- `checkIfNodeJsRuntime(files)` for a folder input: the folder root
contains a `package.json` entry. -/
def checkIfNodeJsRuntime (fs : FileSystem) (folder : String) : Bool :=
  fsExists fs (pathJoin folder "package.json")

/-- Split a character list into maximal whitespace-free words. -/
def wordsAux : List Char → List Char → List (List Char)
  | [], acc => if acc.isEmpty then [] else [acc.reverse]
  | c :: rest, acc =>
    if c.isWhitespace then
      if acc.isEmpty then wordsAux rest []
      else acc.reverse :: wordsAux rest []
    else wordsAux rest (c :: acc)

/-- Trim leading and trailing whitespace from a character list. -/
def trimChars (l : List Char) : List Char :=
  ((l.dropWhile Char.isWhitespace).reverse.dropWhile Char.isWhitespace).reverse

/-- JavaScript `s.trim().split(/\s+/)`: `['']` on a whitespace-only
string, otherwise the whitespace-separated words. -/
def jsTrimSplitWs (s : String) : List String :=
  let t := trimChars s.data
  if t.isEmpty then [""] else (wordsAux t []).map fun cs => ⟨cs⟩

/-- `getNodeJsDeploymentAttrs(files)` for a folder input
(revision `src/unnamed/part_023`, lines 71-101): read and parse the root
`package.json`; require a truthy string `scripts.start` and no
`engines.node` pin; split the start script on whitespace into command
and arguments. -/
def getNodeJsDeploymentAttrs (fs : FileSystem) (folder : String) : DeploymentAttrs :=
  match fsReadPackageJson fs (pathJoin folder "package.json") with
  | none => getEmptyDeploymentAttrs
  | some pj =>
    match pj.start with
    | none => getEmptyDeploymentAttrs
    | some startScript =>
      if startScript = "" then getEmptyDeploymentAttrs
      else if pj.enginesNode then getEmptyDeploymentAttrs
      else
        let parts := jsTrimSplitWs startScript
        { runtime := some RUNTIMES_NODEJS
          cmd := some [parts.headD ""]
          args := some parts.tail
          baseImage := some DEFAULT_NODE_BASE_IMAGE }

/-- `getDeploymentAttrs(files)` (revision `src/unnamed/part_023`, lines
117-129): only single-folder inputs are inspected; only the Node.js
runtime is detected. -/
def getDeploymentAttrs (fs : FileSystem) (files : List FileEntry) : DeploymentAttrs :=
  match files with
  | [.path p] =>
    if fsIsDir fs p then
      if checkIfNodeJsRuntime fs p then getNodeJsDeploymentAttrs fs p
      else getEmptyDeploymentAttrs
    else getEmptyDeploymentAttrs
  | _ => getEmptyDeploymentAttrs

/-- The metadata record returned by `makeFileDeploymentMetadata`. -/
structure FileDeploymentMetadata where
  hasDockerfile : Bool
  deploymentAttrs : DeploymentAttrs
  deriving Repr, DecidableEq

/-- `makeFileDeploymentMetadata(files)`. -/
def makeFileDeploymentMetadata (fs : FileSystem) (files : List FileEntry) :
    FileDeploymentMetadata :=
  { hasDockerfile := checkIfDockerFileExists fs files
    deploymentAttrs := getDeploymentAttrs fs files }

/-- JavaScript truthiness of an optional string field. -/
def jsTruthyStr : Option String → Bool
  | none => false
  | some s => s != ""

/-- `checkIfZipDeploymentFeasible(metadata)` (revision
`src/unnamed/part_023`, lines 146-157): no Dockerfile, and truthy
`runtime`, `cmd` and `args` attributes. -/
def checkIfZipDeploymentFeasible (m : FileDeploymentMetadata) : Bool :=
  !m.hasDockerfile && jsTruthyStr m.deploymentAttrs.runtime &&
    m.deploymentAttrs.cmd.isSome && m.deploymentAttrs.args.isSome

/-! ## Service deployer (`src/lib/deployment/deployer.js`,
`deployToCloudRun`, lines 124-214 / 693-783 in the concatenated file) -/

/-- `sourceCode.cloudStorageSource` of a direct-source container. -/
structure CloudStorageSource where
  bucket : String
  object : String
  deriving Repr, DecidableEq

/-- A container spec as built by `deployToCloudRun` /
`createDirectSourceDeploymentContainer`. -/
structure Container where
  image : String
  baseImageUri : Option String
  sourceCode : Option CloudStorageSource
  command : Option (List String)
  args : Option (List String)
  deriving Repr, DecidableEq

/-- The service configuration object assembled by `deployToCloudRun`:
`{template: {revision, containers}, labels}` plus the optional
`invokerIamDisabled` flag (`invokerIamDisabled = true` models the field
being present, `false` models it absent) and the optional `name` field
set on the update path. -/
structure ServiceConfig where
  name : Option String
  revision : String
  containers : List Container
  labels : List (String × String)
  invokerIamDisabled : Bool
  deriving Repr, DecidableEq

/-- The deployed service object (`response` of `operation.promise()`). -/
structure Service where
  uri : String
  deriving Repr, DecidableEq

/-- Which Cloud Run mutation a call is. -/
inductive CallKind where
  | create
  | update
  deriving Repr, DecidableEq

/-- One logical `createService` / `updateService` call (the outcome after
the retry wrapper), with the service configuration it carried. -/
structure RunCall where
  kind : CallKind
  validateOnly : Bool
  config : ServiceConfig
  deriving Repr, DecidableEq

/-- Oracle for `deployToCloudRun`: the result of the service existence
check, the outcome of the dry-run call, and the outcome of the real
mutation (including awaiting its long-running operation). -/
structure RunOracle where
  serviceExists : Bool
  dryRun : Except GrpcError Unit
  real : Except GrpcError Service
  deriving Repr

/-- Result of a `deployToCloudRun` run: the value returned or error
thrown, and the Cloud Run mutation calls issued, in order. -/
structure RunResult where
  result : Except String Service
  calls : List RunCall
  deriving Repr

/-- The invoker-IAM heuristic of the dry-run catch block (deployer.js
lines 168-174): requires `skipIamCheck`, a truthy error message, and one
of the two message patterns or gRPC code 3 (INVALID_ARGUMENT). -/
def iamHeuristic (skipIamCheck : Bool) (e : GrpcError) : Bool :=
  skipIamCheck && e.message != "" &&
    (includes (lowerStr e.message) "invokeriamdisabled" ||
      includes (lowerStr e.message) "iam policy violation" ||
      e.code == some 3)

/-- The heuristic as the claim words it (no truthy-message requirement):
message contains one of the IAM patterns case-insensitively, or the
error code is 3. -/
def claimedIamHeuristic (skipIamCheck : Bool) (e : GrpcError) : Bool :=
  skipIamCheck &&
    (includes (lowerStr e.message) "invokeriamdisabled" ||
      includes (lowerStr e.message) "iam policy violation" ||
      e.code == some 3)

/-- `deployToCloudRun` (deployer.js lines 66-233): build the service
config (with `invokerIamDisabled` iff `skipIamCheck`), check existence,
always dry-run first on a deep copy, on dry-run failure either drop the
flag (IAM heuristic) or abort, then perform the real create or update. -/
def deployToCloudRun (serviceId servicePath revisionName : String)
    (containers : List Container) (labels : List (String × String))
    (skipIamCheck : Bool) (o : RunOracle) : RunResult :=
  let service : ServiceConfig :=
    { name := none, revision := revisionName, containers := containers
      labels := labels, invokerIamDisabled := skipIamCheck }
  let exists_ := o.serviceExists
  -- `JSON.parse(JSON.stringify(service))`: the dry run works on a copy,
  -- so the later `delete service.invokerIamDisabled` and name assignment
  -- start again from `service`.
  let dryRunServiceConfig :=
    if exists_ then { service with name := some servicePath } else service
  let dryCall : RunCall :=
    { kind := if exists_ then .update else .create
      validateOnly := true, config := dryRunServiceConfig }
  let proceed : ServiceConfig → RunResult := fun svc =>
    let realConfig := if exists_ then { svc with name := some servicePath } else svc
    let realCall : RunCall :=
      { kind := if exists_ then .update else .create
        validateOnly := false, config := realConfig }
    let finalResult : Except String Service :=
      match o.real with
      | .ok s => .ok s
      | .error e =>
        .error ("Error deploying/updating service " ++ serviceId ++ ": " ++ e.message)
    { result := finalResult, calls := [dryCall, realCall] }
  match o.dryRun with
  | .ok _ => proceed service
  | .error dryRunError =>
    if iamHeuristic skipIamCheck dryRunError then
      proceed { service with invokerIamDisabled := false }
    else
      { result := .error ("Dry run validation failed for service " ++ serviceId ++
          ": " ++ dryRunError.message)
        calls := [dryCall] }

/-! ## Direct-source path and orchestration facade
(`src/lib/deployment/deployer.js`, `deploy` lines 882-930,
`deployWithZip` lines 951-1008; `src/lib/deployment/source-processor.js`) -/

/-- `MAX_ARCHIVE_SIZE_BYTES` (deployer.js line 960): 250 MiB. -/
def MAX_ARCHIVE_SIZE_BYTES : Nat := 250 * 1024 * 1024

/-- Oracle for `prepareSourceDirectory` (source-processor.js lines
36-59): whether `mkdir` succeeds, and whether the subsequent stat/copy
loop succeeds. -/
structure PrepOracle where
  mkdirOk : Bool
  copyOk : Bool
  deriving Repr, DecidableEq

/-- Outcome of `prepareSourceDirectory`: the returned temp directory
(`none` when the function throws) and the directory that was actually
created on disk (`none` when `mkdir` itself failed). -/
structure PrepRun where
  result : Option String
  created : Option String
  deriving Repr, DecidableEq

/-- `prepareSourceDirectory(files)`: create the temp directory, then
copy the sources into it; a copy failure throws after the directory was
already created. -/
def prepareSourceDirectory (tempDir : String) (o : PrepOracle) : PrepRun :=
  if !o.mkdirOk then { result := none, created := none }
  else if !o.copyOk then { result := none, created := some tempDir }
  else { result := some tempDir, created := some tempDir }

/-- `cleanupTempDirectory(dirPath)` (source-processor.js lines 114-124):
no-op on a falsy path, otherwise removes the directory.  Returns the
directory removed, if any. -/
def cleanupTempDirectory (dirPath : Option String) : Option String :=
  match dirPath with
  | none => none
  | some d => if d = "" then none else some d

/-- Everything the direct-source path does after the archive is built:
bucket, upload, and `deployToCloudRun`, collapsed to its outcome. -/
abbrev ZipRest := Except String Service

/-- Result of one `deployWithZip` run: its outcome, the temp directory
created on disk, and the temp directory removed by the `finally` block. -/
structure ZipRunResult where
  result : Except String Service
  created : Option String
  cleaned : Option String
  deriving Repr

/-- `deployWithZip` (deployer.js lines 935-1009): prepare the staging
directory, archive it (`archive` is the `zipFiles` outcome, an error or
the buffer length), enforce the 250 MiB limit, then upload and deploy
(`rest`); the `finally` block passes the `tempDir` variable — still
undefined if `prepareSourceDirectory` threw — to `cleanupTempDirectory`. -/
def deployWithZip (p : PrepRun) (archive : Except String Nat) (rest : ZipRest) :
    ZipRunResult :=
  let body : Except String Service :=
    match p.result with
    | none => .error "source preparation failed"
    | some _ =>
      match archive with
      | .error m => .error m
      | .ok size =>
        if size > MAX_ARCHIVE_SIZE_BYTES then .error "Archive size exceeds limit"
        else rest
  { result := body, created := p.created, cleaned := cleanupTempDirectory p.result }

/-- The two deployment strategies of the facade. -/
inductive DeployPath where
  | zip
  | build
  deriving Repr, DecidableEq

/-- Oracle for the direct-source attempt inside `deploy`. -/
structure ZipOracle where
  tempDir : String
  prep : PrepOracle
  archive : Except String Nat
  rest : ZipRest
  deriving Repr

/-- Run the direct-source attempt from its oracle. -/
def runZipAttempt (z : ZipOracle) : ZipRunResult :=
  deployWithZip (prepareSourceDirectory z.tempDir z.prep) z.archive z.rest

/-- Result of the path-selection part of `deploy`: the final outcome,
the strategies attempted in order, and the direct-source run record when
that path was attempted. -/
structure DeployRun where
  result : Except String Service
  pathsAttempted : List DeployPath
  zipRun : Option ZipRunResult
  deriving Repr

/-- The path selection of `deploy` (deployer.js lines 882-923): if the
metadata makes the zip deployment feasible, attempt it, falling through
to the Cloud Build path on any failure; otherwise go straight to the
Cloud Build path, whose outcome is final either way. -/
def deployAfterPreflight (meta : FileDeploymentMetadata) (z : ZipOracle)
    (buildResult : Except String Service) : DeployRun :=
  if checkIfZipDeploymentFeasible meta then
    let zr := runZipAttempt z
    match zr.result with
    | .ok s => { result := .ok s, pathsAttempted := [.zip], zipRun := some zr }
    | .error _ =>
      { result := buildResult, pathsAttempted := [.zip, .build], zipRun := some zr }
  else
    { result := buildResult, pathsAttempted := [.build], zipRun := none }

/-! ## Request validation (`src/lib/deployment/deployer.js`, `deploy`
lines 254-277 / 823-846, `deployImage` lines 519-541 / 1106-1128) -/

/-- How a validation failure is surfaced. -/
inductive ValidationOutcome where
  | reject (msg : String)
  | exitProcess (code : Nat)
  | proceed
  deriving Repr, DecidableEq

/-- JavaScript falsiness of an optional string parameter. -/
def jsFalsyStr : Option String → Bool
  | none => true
  | some s => s == ""

/-- The `files` guard of `deploy`: `!files || !Array.isArray(files) ||
files.length === 0`. -/
def filesInvalid : Option (List FileEntry) → Bool
  | none => true
  | some l => l.isEmpty

/-- The validation prologue of `deploy` (deployer.js lines 823-846):
missing `projectId` or `serviceName` throw; a missing or empty `files`
array calls `process.exit(1)` when `process.exit` is available and
throws only otherwise. -/
def validateDeployParams (projectId serviceName : Option String)
    (files : Option (List FileEntry)) (processExitAvailable : Bool) :
    ValidationOutcome :=
  if jsFalsyStr projectId then
    .reject "Error: projectId is required in the configuration object."
  else if jsFalsyStr serviceName then
    .reject "Error: serviceName is required in the configuration object."
  else if filesInvalid files then
    if processExitAvailable then .exitProcess 1
    else .reject "Error: files array is required in the configuration object."
  else .proceed

/-- The validation prologue of `deployImage` (deployer.js lines
1106-1128): missing `projectId` or `serviceName` throw; a missing
`imageUrl` calls `process.exit(1)` when available and throws otherwise. -/
def validateDeployImageParams (projectId serviceName imageUrl : Option String)
    (processExitAvailable : Bool) : ValidationOutcome :=
  if jsFalsyStr projectId then
    .reject "Error: projectId is required in the configuration object."
  else if jsFalsyStr serviceName then
    .reject "Error: serviceName is required in the configuration object."
  else if jsFalsyStr imageUrl then
    if processExitAvailable then .exitProcess 1
    else .reject "Error: imageUrl is required in the configuration object."
  else .proceed

/-- Entry record: validation outcome plus the number of remote client
calls made.  In the source, clients are only constructed and used after
the validation prologue passes, so a non-`proceed` outcome performs zero
remote calls; `remoteCallsIfProceed` stands for whatever the rest of the
operation does. -/
structure EntryRun where
  outcome : ValidationOutcome
  remoteCalls : Nat
  deriving Repr, DecidableEq

/-- `deploy` up to its first remote call. -/
def deployEntry (projectId serviceName : Option String)
    (files : Option (List FileEntry)) (processExitAvailable : Bool)
    (remoteCallsIfProceed : Nat) : EntryRun :=
  match validateDeployParams projectId serviceName files processExitAvailable with
  | .proceed => { outcome := .proceed, remoteCalls := remoteCallsIfProceed }
  | v => { outcome := v, remoteCalls := 0 }

/-- `deployImage` up to its first remote call. -/
def deployImageEntry (projectId serviceName imageUrl : Option String)
    (processExitAvailable : Bool) (remoteCallsIfProceed : Nat) : EntryRun :=
  match validateDeployImageParams projectId serviceName imageUrl processExitAvailable with
  | .proceed => { outcome := .proceed, remoteCalls := remoteCallsIfProceed }
  | v => { outcome := v, remoteCalls := 0 }

/-! ## Claim-side predicates (worded from the specification, for
refinement comparisons) -/

/-- Claim-side per-entry predicate: the entry is named `Dockerfile`
case-insensitively. -/
def entryNamesDockerfileP : FileEntry → Prop
  | .path s => lowerStr (basename s) = "dockerfile"
  | .blob filename _ => lowerStr (basename filename) = "dockerfile"

/-- Modelled from the claim wording of C9: a file named `Dockerfile` or
`dockerfile` (case-insensitive) exists at the root of a single-folder
input, or anywhere in a flat file-list input. -/
def dockerfileClaimP (fs : FileSystem) (files : List FileEntry) : Prop :=
  (∃ p n, files = [.path p] ∧ fsIsDir fs p = true ∧
    lowerStr n = "dockerfile" ∧ fsExists fs (pathJoin p n) = true) ∨
  (isFolder fs files = false ∧ ∃ f ∈ files, entryNamesDockerfileP f)

/-- The amended C9 predicate: in the single-folder case only the two
exact spellings `Dockerfile` and `dockerfile` at the folder root count;
in the flat-list case any entry whose basename lowercases to
`dockerfile` counts. -/
def dockerfileAmendedP (fs : FileSystem) (files : List FileEntry) : Prop :=
  (∃ p, files = [.path p] ∧ fsIsDir fs p = true ∧
    (fsExists fs (pathJoin p "Dockerfile") = true ∨
      fsExists fs (pathJoin p "dockerfile") = true)) ∨
  (isFolder fs files = false ∧ ∃ f ∈ files, entryNamesDockerfileP f)

/-- The amended C8 predicate: the input is a single existing folder
whose root `package.json` parses, declares a non-empty string
`scripts.start`, and pins no `engines.node`. -/
def nodeRuntimeDetectedP (fs : FileSystem) (files : List FileEntry) : Prop :=
  ∃ p pj startScript, files = [.path p] ∧ fsIsDir fs p = true ∧
    fsReadPackageJson fs (pathJoin p "package.json") = some pj ∧
    pj.start = some startScript ∧ startScript ≠ "" ∧ pj.enginesNode = false

/-! ## Shared helper lemmas -/

theorem strContains_intro (pre sub post : String) :
    strContains (pre ++ sub ++ post) sub :=
  ⟨pre, post, rfl⟩

theorem strContains_self (s : String) : strContains s s :=
  ⟨"", "", by simp [String.empty_append, String.append_empty]⟩

theorem strContains_append_left (a : String) {s sub : String}
    (h : strContains s sub) : strContains (a ++ s) sub := by
  obtain ⟨pre, post, rfl⟩ := h
  exact ⟨a ++ pre, post, by simp [String.append_assoc]⟩

theorem strContains_append_right {s sub : String} (b : String)
    (h : strContains s sub) : strContains (s ++ b) sub := by
  obtain ⟨pre, post, rfl⟩ := h
  exact ⟨pre, post ++ b, by simp [String.append_assoc]⟩

/-- The sleep list of the retry loop started after `r` retries is an
initial run of the backoff schedule continuing from retry `r + 1`. -/
theorem callWithRetryFrom_sleeps (attempts : Nat → Except GrpcError α) (r : Nat) :
    ∃ m, m ≤ maxRetries - r ∧
      (callWithRetryFrom attempts r).2 =
        (List.range' (r + 1) m).map retryBackoffMs := by
  generalize hfuel : maxRetries - r = n
  induction n generalizing r with
  | zero =>
    refine ⟨0, Nat.le_refl _, ?_⟩
    rw [callWithRetryFrom]
    cases h : attempts r with
    | ok a => simp
    | error e =>
      have hlt : ¬ r < maxRetries := by omega
      simp [hlt]
  | succ n ih =>
    rw [callWithRetryFrom]
    cases h : attempts r with
    | ok a => exact ⟨0, by omega, by simp⟩
    | error e =>
      by_cases hc : e.code = some 7 ∧ r < maxRetries
      · obtain ⟨m, hm, hs⟩ := ih (r + 1) (by omega)
        refine ⟨m + 1, by omega, ?_⟩
        simp only [hc, dif_pos, hs, List.range'_succ, List.map_cons]
        simp
      · refine ⟨0, by omega, ?_⟩
        simp [hc]

/-- One code-7 failure unrolls the retry loop by one step, recording its
backoff sleep. -/
theorem callWithRetryFrom_step (attempts : Nat → Except GrpcError α) (r : Nat)
    (hr : r < maxRetries) (e : GrpcError) (he : attempts r = .error e)
    (hc : e.code = some 7) :
    callWithRetryFrom attempts r =
      ((callWithRetryFrom attempts (r + 1)).1,
        retryBackoffMs (r + 1) :: (callWithRetryFrom attempts (r + 1)).2) := by
  rw [callWithRetryFrom, he]
  simp [hc, hr]

/-- When every invocation before `k` fails with code 7, the run from `r`
is the run from `k` preceded by sleeps `r+1, ..., k` of the backoff
schedule. -/
theorem callWithRetryFrom_prefix (attempts : Nat → Except GrpcError α) (r k : Nat)
    (hrk : r ≤ k) (hk : k ≤ maxRetries)
    (hpre : ∀ i, r ≤ i → i < k → ∃ e, attempts i = .error e ∧ e.code = some 7) :
    callWithRetryFrom attempts r =
      ((callWithRetryFrom attempts k).1,
        (List.range' (r + 1) (k - r)).map retryBackoffMs ++
          (callWithRetryFrom attempts k).2) := by
  generalize hn : k - r = n
  induction n generalizing r with
  | zero =>
    have : r = k := by omega
    subst this
    simp
  | succ n ih =>
    obtain ⟨e, he, hc⟩ := hpre r (Nat.le_refl r) (by omega)
    rw [callWithRetryFrom_step attempts r (by omega) e he hc,
      ih (r + 1) (by omega) (fun i h1 h2 => hpre i (by omega) h2) (by omega)]
    simp [List.range'_succ]

/-! ## Claim theorems -/

/-- C4: for every zero-argument asynchronous operation passed to
`callWithRetry`, the whole run is characterized by the first invocation
whose outcome is not a code-7 error: at most 7 retries ever happen,
sleeping 15 s before the first retry and `1s * 2^(n-2)` before retry `n`
for `n ≥ 2`; after any run of code-7 failures, a success returns its
result unchanged and a non-code-7 error propagates unchanged, each
immediately after the recorded sleeps; and when all 8 invocations fail
with code 7, the 8th error propagates after the full schedule. -/
theorem callWithRetry_spec (α : Type) (attempts : Nat → Except GrpcError α) :
    (∃ m, m ≤ maxRetries ∧
      (callWithRetry attempts).2 = (List.range' 1 m).map retryBackoffMs) ∧
    (∀ k, k ≤ maxRetries →
      (∀ i, i < k → ∃ e, attempts i = .error e ∧ e.code = some 7) →
      (∀ a, attempts k = .ok a →
        callWithRetry attempts = (.ok a, (List.range' 1 k).map retryBackoffMs)) ∧
      (∀ e, attempts k = .error e → e.code ≠ some 7 →
        callWithRetry attempts = (.error e, (List.range' 1 k).map retryBackoffMs))) ∧
    ((∀ i, i ≤ maxRetries → ∃ e, attempts i = .error e ∧ e.code = some 7) →
      ∀ e7, attempts maxRetries = .error e7 →
        callWithRetry attempts =
          (.error e7, [15000, 1000, 2000, 4000, 8000, 16000, 32000])) := by
  refine ⟨?_, ?_, ?_⟩
  · obtain ⟨m, hm, hs⟩ := callWithRetryFrom_sleeps attempts 0
    exact ⟨m, by omega, by rw [callWithRetry, hs]⟩
  · intro k hk hpre
    have hpfx := callWithRetryFrom_prefix attempts 0 k (Nat.zero_le k) hk
      (fun i _ h2 => hpre i h2)
    constructor
    · intro a ha
      have hend : callWithRetryFrom attempts k = (.ok a, []) := by
        rw [callWithRetryFrom, ha]
      rw [callWithRetry, hpfx, hend]
      simp
    · intro e he hcode
      have hend : callWithRetryFrom attempts k = (.error e, []) := by
        rw [callWithRetryFrom, he]
        simp [hcode]
      rw [callWithRetry, hpfx, hend]
      simp
  · intro hall e7 h7
    have hpfx := callWithRetryFrom_prefix attempts 0 maxRetries
      (Nat.zero_le _) (Nat.le_refl _) (fun i _ h2 => hall i (by omega))
    have hend : callWithRetryFrom attempts maxRetries = (.error e7, []) := by
      rw [callWithRetryFrom, h7]
      simp
    rw [callWithRetry, hpfx, hend]
    have hs : (List.range' (0 + 1) (maxRetries - 0)).map retryBackoffMs =
        [15000, 1000, 2000, 4000, 8000, 16000, 32000] := by decide
    rw [hs]
    simp

/-- Witness for C4: an operation failing once with code 7 and succeeding
on the first retry returns the success after a single 15 s sleep, and an
operation failing with code 7 on every invocation is retried exactly 7
times with the full backoff schedule before the final error propagates. -/
theorem callWithRetry_spec_witness :
    callWithRetry (fun i =>
        if i = 0 then (.error ⟨some 7, "perm"⟩ : Except GrpcError Nat)
        else .ok 42) = (.ok 42, [15000]) ∧
    callWithRetry (fun _ => (.error ⟨some 7, "permission denied"⟩ :
        Except GrpcError Nat)) =
      (.error ⟨some 7, "permission denied"⟩,
        [15000, 1000, 2000, 4000, 8000, 16000, 32000]) := by
  constructor
  · have h := ((callWithRetry_spec Nat (fun i =>
        if i = 0 then .error ⟨some 7, "perm"⟩ else .ok 42)).2.1 1 (by decide)
      (fun i hi => by
        have : i = 0 := by omega
        subst this
        exact ⟨⟨some 7, "perm"⟩, rfl, rfl⟩)).1 42 rfl
    rwa [show (List.range' 1 1).map retryBackoffMs = [15000] from by decide] at h
  · exact (callWithRetry_spec Nat _).2.2 (fun i _ => ⟨_, rfl, rfl⟩) _ rfl


/-- Lift containment in the reason into the non-attachable billing message. -/
theorem strContains_billingNotEnabledMessage (projectId reason sub : String)
    (h : strContains reason sub) :
    strContains (billingNotEnabledMessage projectId reason) sub := by
  unfold billingNotEnabledMessage
  exact strContains_append_right _ (strContains_append_right _
    (strContains_append_left _ h))

/-- C3: during preflight with billing disabled, a billing-attachment
mutation is issued iff the billing client returned exactly one account
and it is open, and at most once; a non-reporting attachment fails the
preflight; zero accounts, multiple accounts, and a single non-open
account each fail without attaching, with a message carrying the
distinguishing reason — in particular "multiple billing accounts" for
more than one account.  (Models helpers.js lines 150-193.) -/
theorem ensureApisEnabled_billing_spec (projectId : String)
    (accounts : List BillingAccount) (attach : Option ProjectBillingInfo) :
    ((ensureBillingForProject projectId false accounts attach).2 = 1 ↔
      ∃ a, accounts = [a] ∧ a.isOpen = true) ∧
    (ensureBillingForProject projectId false accounts attach).2 ≤ 1 ∧
    (∀ a, accounts = [a] → a.isOpen = true →
      attach.map ProjectBillingInfo.billingEnabled ≠ some true →
      ∃ m, (ensureBillingForProject projectId false accounts attach).1 =
        .error m) ∧
    (accounts = [] →
      ∃ m, (ensureBillingForProject projectId false accounts attach).1 = .error m ∧
        strContains m "no billing accounts were found") ∧
    (2 ≤ accounts.length →
      ∃ m, (ensureBillingForProject projectId false accounts attach).1 = .error m ∧
        strContains m "multiple billing accounts") ∧
    (∀ a, accounts = [a] → a.isOpen = false →
      ∃ m, (ensureBillingForProject projectId false accounts attach).1 = .error m ∧
        strContains m "is not open") := by
  refine ⟨?_, ?_, ?_, ?_, ?_, ?_⟩
  · constructor
    · intro h1
      match accounts with
      | [] => simp [ensureBillingForProject] at h1
      | [a] =>
        refine ⟨a, rfl, ?_⟩
        cases ho : a.isOpen with
        | true => rfl
        | false => simp [ensureBillingForProject, ho] at h1
      | a :: b :: t => simp [ensureBillingForProject] at h1
    · rintro ⟨a, rfl, ho⟩
      cases attach with
      | none => simp [ensureBillingForProject, ho]
      | some info =>
        cases hb : info.billingEnabled <;>
          simp [ensureBillingForProject, ho, hb]
  · match accounts with
    | [] => simp [ensureBillingForProject]
    | [a] =>
      cases ho : a.isOpen
      · simp [ensureBillingForProject, ho]
      · cases attach with
        | none => simp [ensureBillingForProject, ho]
        | some info =>
          cases hb : info.billingEnabled <;>
            simp [ensureBillingForProject, ho, hb]
    | a :: b :: t => simp [ensureBillingForProject]
  · rintro a rfl ho hne
    cases attach with
    | none =>
      exact ⟨billingAttachFailMessage projectId a.name,
        by simp [ensureBillingForProject, ho]⟩
    | some info =>
      cases hb : info.billingEnabled with
      | true => exact absurd (by simp [hb]) hne
      | false =>
        exact ⟨billingAttachFailMessage projectId a.name,
          by simp [ensureBillingForProject, ho, hb]⟩
  · rintro rfl
    refine ⟨billingNotEnabledMessage projectId (billingFailureReason []),
      by simp [ensureBillingForProject], ?_⟩
    apply strContains_billingNotEnabledMessage
    rw [show billingFailureReason [] = "no billing accounts were found" from rfl]
    exact strContains_self _
  · intro hlen
    match accounts with
    | a :: b :: t =>
      refine ⟨billingNotEnabledMessage projectId (billingFailureReason (a :: b :: t)),
        by simp [ensureBillingForProject], ?_⟩
      apply strContains_billingNotEnabledMessage
      have hr : billingFailureReason (a :: b :: t) =
          "multiple billing accounts were found" := by
        simp [billingFailureReason]
      rw [hr]
      exact ⟨"", " were found", by decide⟩
  · rintro a rfl ho
    refine ⟨billingNotEnabledMessage projectId (billingFailureReason [a]),
      by simp [ensureBillingForProject, ho], ?_⟩
    apply strContains_billingNotEnabledMessage
    have hr : billingFailureReason [a] =
        "the only available billing account \x27" ++ a.displayName ++
          "\x27 is not open" := by
      simp [billingFailureReason]
    rw [hr]
    exact strContains_append_left _ ⟨"\x27 ", "", by decide⟩

/-- Witness for C3: billing disabled with two open billing accounts
fails without attaching and the message contains
"multiple billing accounts". -/
theorem ensureApisEnabled_billing_spec_witness :
    (ensureBillingForProject "demo-project" false
        [⟨"billingAccounts/A", "Account A", true⟩,
          ⟨"billingAccounts/B", "Account B", true⟩] none).2 = 0 ∧
    ∃ m, (ensureBillingForProject "demo-project" false
        [⟨"billingAccounts/A", "Account A", true⟩,
          ⟨"billingAccounts/B", "Account B", true⟩] none).1 = .error m ∧
      strContains m "multiple billing accounts" := by
  refine ⟨rfl, ?_⟩
  exact (ensureApisEnabled_billing_spec "demo-project"
    [⟨"billingAccounts/A", "Account A", true⟩,
      ⟨"billingAccounts/B", "Account B", true⟩] none).2.2.2.2.1 (by decide)

/-- C5: for every build reaching a terminal status other than SUCCESS,
the thrown error message names the build id, contains "failed", contains
the chronologically-reversed log excerpt whenever the fetch returned
entries, and contains the log web URL whenever the fetch failed or
returned no entries — so it never lacks both.
(Models build.js lines 178-246.) -/
theorem triggerCloudBuild_failure_spec (status buildId logUrl : String)
    (builtImages : List String) (logFetch : Except String (List LogEntry))
    (hterm : status ∈ terminalBuildStatuses) (hne : status ≠ "SUCCESS") :
    ∃ m, buildCompletionOutcome status buildId logUrl builtImages logFetch =
        .error m ∧
      strContains m buildId ∧
      strContains m "failed" ∧
      (∀ entries, logFetch = .ok entries → entries ≠ [] →
        strContains m
          (String.intercalate "\n" (entries.reverse.map fun e => e.getD ""))) ∧
      (∀ err, logFetch = .error err → strContains m logUrl) ∧
      (logFetch = .ok [] → strContains m logUrl) := by
  refine ⟨"Build " ++ buildId ++ " failed." ++ buildLogsSnippet buildId logUrl logFetch,
    by simp [buildCompletionOutcome, hne], ?_, ?_, ?_, ?_, ?_⟩
  · exact strContains_append_right _ (strContains_append_right _
      (strContains_append_left _ (strContains_self _)))
  · apply strContains_append_right
    refine ⟨"Build " ++ buildId ++ " ", ".", ?_⟩
    simp only [String.append_assoc]
    exact congrArg (fun t => "Build " ++ (buildId ++ t)) (by decide)
  · rintro entries rfl hne2
    apply strContains_append_left
    unfold buildLogsSnippet
    have hlen : 0 < entries.length := List.length_pos.mpr hne2
    simp only [hlen, if_pos, List.length_map, List.length_reverse]
    exact ⟨_, "", by rw [String.append_empty]⟩
  · rintro err rfl
    apply strContains_append_left
    rw [show buildLogsSnippet buildId logUrl (.error err) =
      "\n\nRefer to Log URL for full details: " ++ logUrl from rfl]
    exact ⟨_, "", by rw [String.append_empty]⟩
  · rintro rfl
    apply strContains_append_left
    rw [show buildLogsSnippet buildId logUrl (.ok []) =
      "\n\nRefer to Log URL for full details: " ++ logUrl from rfl]
    exact ⟨_, "", by rw [String.append_empty]⟩

/-- Witness for C5: a FAILURE build with two fetched log entries (newest
first) reports "failed", the build id, and the excerpt in chronological
order. -/
theorem triggerCloudBuild_failure_spec_witness :
    ∃ m, buildCompletionOutcome "FAILURE" "b1234" "https://logs.example"
        [] (.ok [some "second line", some "first line"]) = .error m ∧
      strContains m "b1234" ∧ strContains m "failed" ∧
      strContains m "first line\nsecond line" := by
  obtain ⟨m, hm, hid, hfail, hexc, -, -⟩ :=
    triggerCloudBuild_failure_spec "FAILURE" "b1234" "https://logs.example"
      [] (.ok [some "second line", some "first line"])
      (by decide) (by decide)
  refine ⟨m, hm, hid, hfail, ?_⟩
  have := hexc [some "second line", some "first line"] rfl (by decide)
  rwa [show String.intercalate "\n"
      (([some "second line", some "first line"].reverse).map fun e => e.getD "") =
      "first line\nsecond line" from by decide] at this

/-- Counterexample for C9 as stated: a single-folder input whose root
contains only `DOCKERFILE` — a file named Dockerfile case-insensitively
at the folder root — yet `checkIfDockerFileExists` returns false,
because the folder branch probes only the exact spellings `Dockerfile`
and `dockerfile`. -/
theorem checkIfDockerFileExists_counterexample :
    checkIfDockerFileExists ⟨["app"], [("app/DOCKERFILE", .other)]⟩
        [.path "app"] = false ∧
    dockerfileClaimP ⟨["app"], [("app/DOCKERFILE", .other)]⟩ [.path "app"] := by
  refine ⟨by decide, Or.inl ⟨"app", "DOCKERFILE", rfl, by decide, by decide, by decide⟩⟩

/-- C9 (amended): `checkIfDockerFileExists` returns true iff a file
named exactly `Dockerfile` or exactly `dockerfile` exists at the root of
a single-folder input, or a file whose basename case-insensitively
equals `dockerfile` occurs anywhere in a flat file-list input; a
Dockerfile only in a subdirectory of a folder input yields false.
(Models helpers.js lines 26-62.) -/
theorem checkIfDockerFileExists_amended (fs : FileSystem) (files : List FileEntry) :
    checkIfDockerFileExists fs files = true ↔ dockerfileAmendedP fs files := by
  unfold checkIfDockerFileExists dockerfileAmendedP
  by_cases hf : isFolder fs files = true
  · match files, hf with
    | [.path p], hf =>
      have hd : fsIsDir fs p = true := by
        simpa [isFolder] using hf
      rw [if_pos hf]
      show (fsExists fs (pathJoin p "Dockerfile") ||
        fsExists fs (pathJoin p "dockerfile")) = true ↔ _
      constructor
      · intro h
        exact Or.inl ⟨p, rfl, hd, by simpa using h⟩
      · rintro (⟨q, hq, _, h⟩ | ⟨hfalse, _⟩)
        · cases hq
          simpa using h
        · rw [hf] at hfalse
          cases hfalse
  · have hf' : isFolder fs files = false := by
      simpa using hf
    rw [if_neg (by simp [hf'])]
    simp only [hf']
    constructor
    · intro h
      obtain ⟨f, hmem, hdf⟩ := List.any_eq_true.mp h
      refine Or.inr ⟨by trivial, f, hmem, ?_⟩
      cases f with
      | path s =>
        simpa [entryIsDockerfile, entryNamesDockerfileP] using hdf
      | blob filename content =>
        simp only [entryIsDockerfile, Bool.and_eq_true, beq_iff_eq] at hdf
        simpa [entryNamesDockerfileP] using hdf.2
    · rintro (⟨q, hq, hdir, _⟩ | ⟨-, f, hmem, hdf⟩)
      · cases hq
        simp [isFolder, hdir] at hf'
      · refine List.any_eq_true.mpr ⟨f, hmem, ?_⟩
        cases f with
        | path s => simpa [entryIsDockerfile, entryNamesDockerfileP] using hdf
        | blob filename content =>
          simp only [entryNamesDockerfileP] at hdf
          have hne : filename ≠ "" := by
            rintro rfl
            rw [show lowerStr (basename "") = "" from rfl] at hdf
            exact absurd hdf (by decide)
          simp [entryIsDockerfile, hdf, hne]

/-- Counterexample for C8 as stated: a single-folder input whose root
`package.json` exists (the recognized project manifest is found) but
does not parse as JSON; the detected runtime is nevertheless unset. -/
theorem getDeploymentAttrs_counterexample :
    (getDeploymentAttrs ⟨["app"], [("app/package.json", .packageJson none)]⟩
      [.path "app"]).runtime = none ∧
    fsIsFile ⟨["app"], [("app/package.json", .packageJson none)]⟩
      (pathJoin "app" "package.json") = true ∧
    fsIsDir ⟨["app"], [("app/package.json", .packageJson none)]⟩ "app" = true := by
  refine ⟨by decide, by decide, by decide⟩

/-- C8 (amended): the detected runtime is set iff the input is a single
existing folder whose root `package.json` parses as JSON, declares a
non-empty string start script, and pins no node engine version; an
unset runtime makes the direct-source (zip) path infeasible, forcing
the build-based path.  (Models `src/unnamed/part_023` lines 61-129 and
146-157.) -/
theorem getDeploymentAttrs_amended (fs : FileSystem) (files : List FileEntry) :
    ((getDeploymentAttrs fs files).runtime.isSome = true ↔
      nodeRuntimeDetectedP fs files) ∧
    ((makeFileDeploymentMetadata fs files).deploymentAttrs.runtime = none →
      checkIfZipDeploymentFeasible (makeFileDeploymentMetadata fs files) = false) := by
  constructor
  · constructor
    · intro h
      match files with
      | [] => simp [getDeploymentAttrs, getEmptyDeploymentAttrs] at h
      | .blob f c :: t => simp [getDeploymentAttrs, getEmptyDeploymentAttrs] at h
      | .path p :: x :: t => simp [getDeploymentAttrs, getEmptyDeploymentAttrs] at h
      | [.path p] =>
        by_cases hd : fsIsDir fs p = true
        case neg => simp [getDeploymentAttrs, hd, getEmptyDeploymentAttrs] at h
        by_cases hn : checkIfNodeJsRuntime fs p = true
        case neg => simp [getDeploymentAttrs, hd, hn, getEmptyDeploymentAttrs] at h
        cases hr : fsReadPackageJson fs (pathJoin p "package.json") with
        | none =>
          simp [getDeploymentAttrs, hd, hn, getNodeJsDeploymentAttrs, hr,
            getEmptyDeploymentAttrs] at h
        | some pj =>
          cases hst : pj.start with
          | none =>
            simp [getDeploymentAttrs, hd, hn, getNodeJsDeploymentAttrs, hr, hst,
              getEmptyDeploymentAttrs] at h
          | some startScript =>
            by_cases hemp : startScript = ""
            · simp [getDeploymentAttrs, hd, hn, getNodeJsDeploymentAttrs, hr, hst,
                hemp, getEmptyDeploymentAttrs] at h
            · cases hen : pj.enginesNode with
              | true =>
                simp [getDeploymentAttrs, hd, hn, getNodeJsDeploymentAttrs, hr,
                  hst, hemp, hen, getEmptyDeploymentAttrs] at h
              | false =>
                exact ⟨p, pj, startScript, rfl, hd, hr, hst, hemp, hen⟩
    · rintro ⟨p, pj, startScript, rfl, hd, hr, hst, hemp, hen⟩
      have hn : checkIfNodeJsRuntime fs p = true := by
        have : fsIsFile fs (pathJoin p "package.json") = true := by
          unfold fsReadPackageJson at hr
          unfold fsIsFile
          cases hl : (fs.files.lookup (pathJoin p "package.json")) with
          | none => rw [hl] at hr; cases hr
          | some c => simp
        simp [checkIfNodeJsRuntime, fsExists, this]
      rw [getDeploymentAttrs, if_pos hd, if_pos hn]
      simp [getNodeJsDeploymentAttrs, hr, hst, hemp, hen]
  · intro h
    simp [checkIfZipDeploymentFeasible, h, jsTruthyStr]

/-- The attributes returned by `getDeploymentAttrs` are either all-unset
or the full Node.js record. -/
theorem getDeploymentAttrs_shape (fs : FileSystem) (files : List FileEntry) :
    getDeploymentAttrs fs files = getEmptyDeploymentAttrs ∨
    ∃ c a, getDeploymentAttrs fs files =
      { runtime := some RUNTIMES_NODEJS, cmd := some c, args := some a,
        baseImage := some DEFAULT_NODE_BASE_IMAGE } := by
  match files with
  | [] => exact Or.inl rfl
  | .blob f c :: t => exact Or.inl rfl
  | .path p :: x :: t => exact Or.inl rfl
  | [.path p] =>
    by_cases hd : fsIsDir fs p = true
    case neg => exact Or.inl (by simp [getDeploymentAttrs, hd])
    by_cases hn : checkIfNodeJsRuntime fs p = true
    case neg => exact Or.inl (by simp [getDeploymentAttrs, hd, hn])
    cases hr : fsReadPackageJson fs (pathJoin p "package.json") with
    | none =>
      exact Or.inl (by simp [getDeploymentAttrs, hd, hn, getNodeJsDeploymentAttrs, hr])
    | some pj =>
      cases hst : pj.start with
      | none =>
        exact Or.inl (by
          simp [getDeploymentAttrs, hd, hn, getNodeJsDeploymentAttrs, hr, hst])
      | some startScript =>
        by_cases hemp : startScript = ""
        · exact Or.inl (by
            simp [getDeploymentAttrs, hd, hn, getNodeJsDeploymentAttrs, hr, hst, hemp])
        · cases hen : pj.enginesNode with
          | true =>
            exact Or.inl (by
              simp [getDeploymentAttrs, hd, hn, getNodeJsDeploymentAttrs, hr, hst,
                hemp, hen])
          | false =>
            exact Or.inr ⟨[(jsTrimSplitWs startScript).headD ""],
              (jsTrimSplitWs startScript).tail, by
                simp [getDeploymentAttrs, hd, hn, getNodeJsDeploymentAttrs, hr, hst,
                  hemp, hen]⟩

/-- On metadata produced by `makeFileDeploymentMetadata`, the zip
feasibility check is equivalent to "no Dockerfile and a detected
runtime". -/
theorem checkIfZipDeploymentFeasible_iff (fs : FileSystem) (files : List FileEntry) :
    checkIfZipDeploymentFeasible (makeFileDeploymentMetadata fs files) = true ↔
      (checkIfDockerFileExists fs files = false ∧
        (getDeploymentAttrs fs files).runtime.isSome = true) := by
  rcases getDeploymentAttrs_shape fs files with h | ⟨c, a, h⟩ <;>
    simp [checkIfZipDeploymentFeasible, makeFileDeploymentMetadata, h,
      getEmptyDeploymentAttrs, jsTruthyStr, RUNTIMES_NODEJS]

/-- C2: in every `deploy` call, the direct-source (zip) path is
attempted iff no Dockerfile is detected and a runtime was detected; any
direct-source failure (including the 250 MiB archive limit) falls
through to the build path rather than failing the deployment; a build
failure never falls back to the zip path, and exactly one of the two
paths produces the final result.  (Models deployer.js lines 882-930 and
951-1008.) -/
theorem deploy_path_selection (fs : FileSystem) (files : List FileEntry)
    (z : ZipOracle) (buildResult : Except String Service) :
    (DeployPath.zip ∈ (deployAfterPreflight (makeFileDeploymentMetadata fs files)
        z buildResult).pathsAttempted ↔
      (checkIfDockerFileExists fs files = false ∧
        (getDeploymentAttrs fs files).runtime.isSome = true)) ∧
    ((∃ d, (prepareSourceDirectory z.tempDir z.prep).result = some d) →
      ∀ n, z.archive = .ok n → n > MAX_ARCHIVE_SIZE_BYTES →
      checkIfZipDeploymentFeasible (makeFileDeploymentMetadata fs files) = true →
      (deployAfterPreflight (makeFileDeploymentMetadata fs files) z
          buildResult).result = buildResult ∧
      (deployAfterPreflight (makeFileDeploymentMetadata fs files) z
          buildResult).pathsAttempted = [DeployPath.zip, DeployPath.build]) ∧
    (((∃ s, (runZipAttempt z).result = .ok s) ∧
        (deployAfterPreflight (makeFileDeploymentMetadata fs files) z
          buildResult).pathsAttempted = [DeployPath.zip] ∧
        (deployAfterPreflight (makeFileDeploymentMetadata fs files) z
          buildResult).result = (runZipAttempt z).result) ∨
      ((∃ e, (runZipAttempt z).result = .error e) ∧
        (deployAfterPreflight (makeFileDeploymentMetadata fs files) z
          buildResult).pathsAttempted = [DeployPath.zip, DeployPath.build] ∧
        (deployAfterPreflight (makeFileDeploymentMetadata fs files) z
          buildResult).result = buildResult) ∨
      ((deployAfterPreflight (makeFileDeploymentMetadata fs files) z
          buildResult).pathsAttempted = [DeployPath.build] ∧
        (deployAfterPreflight (makeFileDeploymentMetadata fs files) z
          buildResult).result = buildResult)) := by
  by_cases hfeas :
      checkIfZipDeploymentFeasible (makeFileDeploymentMetadata fs files) = true
  · refine ⟨?_, ?_, ?_⟩
    · rw [← checkIfZipDeploymentFeasible_iff fs files]
      cases hz : (runZipAttempt z).result <;>
        simp [deployAfterPreflight, hfeas, hz]
    · rintro ⟨d, hd⟩ n harch hsize -
      have hz : (runZipAttempt z).result = .error "Archive size exceeds limit" := by
        simp [runZipAttempt, deployWithZip, hd, harch, hsize]
      constructor <;> simp [deployAfterPreflight, hfeas, hz]
    · cases hz : (runZipAttempt z).result with
      | ok s =>
        exact Or.inl ⟨⟨s, rfl⟩, by simp [deployAfterPreflight, hfeas, hz],
          by simp [deployAfterPreflight, hfeas, hz]⟩
      | error e =>
        exact Or.inr (Or.inl ⟨⟨e, rfl⟩, by simp [deployAfterPreflight, hfeas, hz],
          by simp [deployAfterPreflight, hfeas, hz]⟩)
  · refine ⟨?_, ?_, ?_⟩
    · rw [← checkIfZipDeploymentFeasible_iff fs files]
      simp [deployAfterPreflight, hfeas]
    · intro _ n _ _ hfeas2
      exact absurd hfeas2 hfeas
    · exact Or.inr (Or.inr ⟨by simp [deployAfterPreflight, hfeas],
        by simp [deployAfterPreflight, hfeas]⟩)

/-- Witness for C2: a feasible Node.js source whose staged archive
exceeds 250 MiB falls through to the Cloud Build path, which produces
the final service. -/
theorem deploy_path_selection_witness :
    checkIfZipDeploymentFeasible (makeFileDeploymentMetadata
      ⟨["app"], [("app/package.json", .packageJson (some ⟨some "node index.js", false⟩))]⟩
      [.path "app"]) = true ∧
    (deployAfterPreflight (makeFileDeploymentMetadata
        ⟨["app"], [("app/package.json", .packageJson (some ⟨some "node index.js", false⟩))]⟩
        [.path "app"])
      ⟨"/tmp/stage", ⟨true, true⟩, .ok (MAX_ARCHIVE_SIZE_BYTES + 1), .ok ⟨"https://zip"⟩⟩
      (.ok ⟨"https://build"⟩)).result = .ok ⟨"https://build"⟩ ∧
    (deployAfterPreflight (makeFileDeploymentMetadata
        ⟨["app"], [("app/package.json", .packageJson (some ⟨some "node index.js", false⟩))]⟩
        [.path "app"])
      ⟨"/tmp/stage", ⟨true, true⟩, .ok (MAX_ARCHIVE_SIZE_BYTES + 1), .ok ⟨"https://zip"⟩⟩
      (.ok ⟨"https://build"⟩)).pathsAttempted = [DeployPath.zip, DeployPath.build] := by
  have hfeas : checkIfZipDeploymentFeasible (makeFileDeploymentMetadata
      ⟨["app"], [("app/package.json", .packageJson (some ⟨some "node index.js", false⟩))]⟩
      [.path "app"]) = true := by decide
  obtain ⟨hres, hpaths⟩ :=
    (deploy_path_selection
      ⟨["app"], [("app/package.json", .packageJson (some ⟨some "node index.js", false⟩))]⟩
      [.path "app"]
      ⟨"/tmp/stage", ⟨true, true⟩, .ok (MAX_ARCHIVE_SIZE_BYTES + 1), .ok ⟨"https://zip"⟩⟩
      (.ok ⟨"https://build"⟩)).2.1
      ⟨"/tmp/stage", rfl⟩ (MAX_ARCHIVE_SIZE_BYTES + 1) rfl (Nat.lt_succ_self _) hfeas
  exact ⟨hfeas, hres, hpaths⟩

/-- C7 (amended): whenever `prepareSourceDirectory` returns the staging
directory, `deployWithZip` removes exactly that directory before
completing, on every exit path — success, archive failure, size-limit
failure and deploy failure alike.  (Models deployer.js lines 951-1008
and source-processor.js lines 36-59 and 114-124.) -/
theorem deployWithZip_cleanup (tempDir : String) (po : PrepOracle)
    (archive : Except String Nat) (rest : ZipRest)
    (hmk : po.mkdirOk = true) (hcp : po.copyOk = true) (hne : tempDir ≠ "") :
    (deployWithZip (prepareSourceDirectory tempDir po) archive rest).created =
      some tempDir ∧
    (deployWithZip (prepareSourceDirectory tempDir po) archive rest).cleaned =
      some tempDir := by
  constructor <;>
    simp [deployWithZip, prepareSourceDirectory, hmk, hcp,
      cleanupTempDirectory, hne]

/-- Witness for C7: a staged directory is cleaned even when the final
deployment step fails. -/
theorem deployWithZip_cleanup_witness :
    (deployWithZip (prepareSourceDirectory "/tmp/x" ⟨true, true⟩) (.ok 10)
      (.error "deploy failed")).created = some "/tmp/x" ∧
    (deployWithZip (prepareSourceDirectory "/tmp/x" ⟨true, true⟩) (.ok 10)
      (.error "deploy failed")).cleaned = some "/tmp/x" :=
  deployWithZip_cleanup "/tmp/x" ⟨true, true⟩ (.ok 10) (.error "deploy failed")
    rfl rfl (by decide)

/-- Counterexample for C7 as stated: when the copy step of
`prepareSourceDirectory` throws after the staging directory was created,
the `finally` block receives an undefined `tempDir` and removes nothing,
even though the request completes (falling back to the build path). -/
theorem deployWithZip_cleanup_counterexample :
    (runZipAttempt ⟨"/root/.cloud-run-mcp/source/app-17", ⟨true, false⟩,
        .ok 0, .ok ⟨"https://svc"⟩⟩).created =
      some "/root/.cloud-run-mcp/source/app-17" ∧
    (runZipAttempt ⟨"/root/.cloud-run-mcp/source/app-17", ⟨true, false⟩,
        .ok 0, .ok ⟨"https://svc"⟩⟩).cleaned = none ∧
    (∃ e, (runZipAttempt ⟨"/root/.cloud-run-mcp/source/app-17", ⟨true, false⟩,
        .ok 0, .ok ⟨"https://svc"⟩⟩).result = .error e) ∧
    (deployAfterPreflight
        ⟨false, ⟨some "nodejs", some ["node"], some ["index.js"], some "nodejs22"⟩⟩
        ⟨"/root/.cloud-run-mcp/source/app-17", ⟨true, false⟩, .ok 0, .ok ⟨"https://svc"⟩⟩
        (.ok ⟨"https://build"⟩)).result = .ok ⟨"https://build"⟩ :=
  ⟨rfl, rfl, ⟨"source preparation failed", rfl⟩, rfl⟩

/-- C1 (amended): every deployment through `deployToCloudRun` issues a
validateOnly create-or-update call first and exactly one validateOnly
call overall; a dry-run failure matching the IAM heuristic — skipIamCheck
set, a non-empty error message, and one of the two IAM message patterns
or gRPC code 3 — drops `invokerIamDisabled` and proceeds to the real
mutation without re-validating; any other dry-run failure fails the
deployment with no non-validateOnly call ever made; for a not-yet-existing
service the real mutation is a single `createService` with
`invokerIamDisabled` absent.  (Models deployer.js lines 124-214.) -/
theorem deployToCloudRun_dryRun_protocol (serviceId servicePath revisionName : String)
    (containers : List Container) (labels : List (String × String))
    (skipIamCheck : Bool) (o : RunOracle) :
    ((deployToCloudRun serviceId servicePath revisionName containers labels
        skipIamCheck o).calls.head?.map fun c => (c.validateOnly, c.kind)) =
      some (true, if o.serviceExists then CallKind.update else CallKind.create) ∧
    (((deployToCloudRun serviceId servicePath revisionName containers labels
        skipIamCheck o).calls.filter fun c => c.validateOnly).length = 1) ∧
    (∀ e, o.dryRun = .error e → iamHeuristic skipIamCheck e = true →
      (((deployToCloudRun serviceId servicePath revisionName containers labels
          skipIamCheck o).calls.filter fun c => !c.validateOnly).map
        fun c => (c.kind, c.config.invokerIamDisabled)) =
        [(if o.serviceExists then CallKind.update else CallKind.create, false)]) ∧
    (∀ e, o.dryRun = .error e → iamHeuristic skipIamCheck e = false →
      (deployToCloudRun serviceId servicePath revisionName containers labels
          skipIamCheck o).result =
        .error ("Dry run validation failed for service " ++ serviceId ++ ": " ++
          e.message) ∧
      ((deployToCloudRun serviceId servicePath revisionName containers labels
          skipIamCheck o).calls.filter fun c => !c.validateOnly) = []) ∧
    (o.serviceExists = false → skipIamCheck = true →
      ∀ e, o.dryRun = .error e → iamHeuristic true e = true →
        (((deployToCloudRun serviceId servicePath revisionName containers labels
            true o).calls.filter fun c => !c.validateOnly).map
          fun c => (c.kind, c.validateOnly, c.config.invokerIamDisabled)) =
          [(CallKind.create, false, false)]) := by
  refine ⟨?_, ?_, ?_, ?_, ?_⟩
  · cases hdr : o.dryRun with
    | ok u =>
      cases hex : o.serviceExists <;> simp [deployToCloudRun, hdr, hex]
    | error e =>
      by_cases hh : iamHeuristic skipIamCheck e = true <;>
        cases hex : o.serviceExists <;> simp [deployToCloudRun, hdr, hex, hh]
  · cases hdr : o.dryRun with
    | ok u =>
      cases hex : o.serviceExists <;> simp [deployToCloudRun, hdr, hex]
    | error e =>
      by_cases hh : iamHeuristic skipIamCheck e = true <;>
        cases hex : o.serviceExists <;> simp [deployToCloudRun, hdr, hex, hh]
  · intro e hdr hh
    cases hex : o.serviceExists <;> simp [deployToCloudRun, hdr, hh, hex]
  · intro e hdr hh
    cases hex : o.serviceExists <;>
      constructor <;> simp [deployToCloudRun, hdr, hh, hex]
  · intro hex hskip e hdr hh
    subst hskip
    simp [deployToCloudRun, hdr, hh, hex]

/-- Witness for C1: a not-yet-existing service deployed with
skipInvokerCheck whose dry-run fails with an INVALID_ARGUMENT carrying an
IAM message proceeds to a single real `createService` with the flag
removed. -/
theorem deployToCloudRun_dryRun_protocol_witness :
    (((deployToCloudRun "svc" "projects/p/locations/r/services/svc" "svc-1"
        [⟨"gcr.io/p/img", none, none, none, none⟩] [("created-by", "cloud-run-mcp")]
        true ⟨false, .error ⟨some 3, "iam policy violation: invoker check"⟩,
          .ok ⟨"https://svc.run.app"⟩⟩).calls.filter fun c => !c.validateOnly).map
      fun c => (c.kind, c.validateOnly, c.config.invokerIamDisabled)) =
      [(CallKind.create, false, false)] := by
  exact (deployToCloudRun_dryRun_protocol "svc"
    "projects/p/locations/r/services/svc" "svc-1"
    [⟨"gcr.io/p/img", none, none, none, none⟩] [("created-by", "cloud-run-mcp")]
    true ⟨false, .error ⟨some 3, "iam policy violation: invoker check"⟩,
      .ok ⟨"https://svc.run.app"⟩⟩).2.2.2.2 rfl rfl
    ⟨some 3, "iam policy violation: invoker check"⟩ rfl (by decide)

/-- Counterexample for C1 as stated: a dry-run failure with gRPC code 3
but an empty message satisfies the claim's heuristic condition, yet the
code requires a truthy message (`dryRunError.message &&`), so the
deployment fails and no real mutation is ever issued. -/
theorem deployToCloudRun_dryRun_counterexample :
    claimedIamHeuristic true ⟨some 3, ""⟩ = true ∧
    ((deployToCloudRun "svc" "projects/p/locations/r/services/svc" "svc-1"
        [⟨"gcr.io/p/img", none, none, none, none⟩] []
        true ⟨false, .error ⟨some 3, ""⟩, .ok ⟨"https://svc.run.app"⟩⟩).calls.filter
          fun c => !c.validateOnly) = [] ∧
    (deployToCloudRun "svc" "projects/p/locations/r/services/svc" "svc-1"
        [⟨"gcr.io/p/img", none, none, none, none⟩] []
        true ⟨false, .error ⟨some 3, ""⟩, .ok ⟨"https://svc.run.app"⟩⟩).result =
      .error "Dry run validation failed for service svc: " := by
  refine ⟨by decide, ?_, ?_⟩ <;> simp [deployToCloudRun, iamHeuristic]

/-- C10: the dry run operates on a deep copy, so every real
(non-validateOnly) call's configuration agrees with the dry-run-validated
configuration on revision, containers, labels and name, and differs at
most by removal of `invokerIamDisabled`.  (Models deployer.js lines
124-214.) -/
theorem deployToCloudRun_frame (serviceId servicePath revisionName : String)
    (containers : List Container) (labels : List (String × String))
    (skipIamCheck : Bool) (o : RunOracle) :
    ∀ c ∈ (deployToCloudRun serviceId servicePath revisionName containers labels
        skipIamCheck o).calls, c.validateOnly = false →
      ∃ d, d ∈ (deployToCloudRun serviceId servicePath revisionName containers
          labels skipIamCheck o).calls ∧ d.validateOnly = true ∧
        c.config.revision = d.config.revision ∧
        c.config.containers = d.config.containers ∧
        c.config.labels = d.config.labels ∧
        c.config.name = d.config.name ∧
        (c.config.invokerIamDisabled = d.config.invokerIamDisabled ∨
          (d.config.invokerIamDisabled = true ∧
            c.config.invokerIamDisabled = false)) := by
  intro c hmem hreal
  cases hdr : o.dryRun with
  | ok u =>
    cases hex : o.serviceExists with
    | false =>
      have hc : (deployToCloudRun serviceId servicePath revisionName containers
          labels skipIamCheck o).calls =
          [⟨.create, true, ⟨none, revisionName, containers, labels, skipIamCheck⟩⟩,
            ⟨.create, false, ⟨none, revisionName, containers, labels, skipIamCheck⟩⟩] := by
        simp [deployToCloudRun, hdr, hex]
      rw [hc] at hmem
      simp only [List.mem_cons, List.not_mem_nil, or_false] at hmem
      rcases hmem with rfl | rfl
      · exact absurd hreal (by simp)
      · exact ⟨⟨.create, true, ⟨none, revisionName, containers, labels, skipIamCheck⟩⟩,
          by rw [hc]; exact List.mem_cons_self _ _, rfl, rfl, rfl, rfl, rfl,
          Or.inl rfl⟩
    | true =>
      have hc : (deployToCloudRun serviceId servicePath revisionName containers
          labels skipIamCheck o).calls =
          [⟨.update, true,
              ⟨some servicePath, revisionName, containers, labels, skipIamCheck⟩⟩,
            ⟨.update, false,
              ⟨some servicePath, revisionName, containers, labels, skipIamCheck⟩⟩] := by
        simp [deployToCloudRun, hdr, hex]
      rw [hc] at hmem
      simp only [List.mem_cons, List.not_mem_nil, or_false] at hmem
      rcases hmem with rfl | rfl
      · exact absurd hreal (by simp)
      · exact ⟨⟨.update, true,
            ⟨some servicePath, revisionName, containers, labels, skipIamCheck⟩⟩,
          by rw [hc]; exact List.mem_cons_self _ _, rfl, rfl, rfl, rfl, rfl,
          Or.inl rfl⟩
  | error e =>
    by_cases hh : iamHeuristic skipIamCheck e = true
    · cases hex : o.serviceExists with
      | false =>
        have hc : (deployToCloudRun serviceId servicePath revisionName containers
            labels skipIamCheck o).calls =
            [⟨.create, true, ⟨none, revisionName, containers, labels, skipIamCheck⟩⟩,
              ⟨.create, false, ⟨none, revisionName, containers, labels, false⟩⟩] := by
          simp [deployToCloudRun, hdr, hex, hh]
        rw [hc] at hmem
        simp only [List.mem_cons, List.not_mem_nil, or_false] at hmem
        rcases hmem with rfl | rfl
        · exact absurd hreal (by simp)
        · refine ⟨⟨.create, true,
              ⟨none, revisionName, containers, labels, skipIamCheck⟩⟩,
            by rw [hc]; exact List.mem_cons_self _ _, rfl, rfl, rfl, rfl, rfl, ?_⟩
          cases skipIamCheck
          · exact Or.inl rfl
          · exact Or.inr ⟨rfl, rfl⟩
      | true =>
        have hc : (deployToCloudRun serviceId servicePath revisionName containers
            labels skipIamCheck o).calls =
            [⟨.update, true,
                ⟨some servicePath, revisionName, containers, labels, skipIamCheck⟩⟩,
              ⟨.update, false,
                ⟨some servicePath, revisionName, containers, labels, false⟩⟩] := by
          simp [deployToCloudRun, hdr, hex, hh]
        rw [hc] at hmem
        simp only [List.mem_cons, List.not_mem_nil, or_false] at hmem
        rcases hmem with rfl | rfl
        · exact absurd hreal (by simp)
        · refine ⟨⟨.update, true,
              ⟨some servicePath, revisionName, containers, labels, skipIamCheck⟩⟩,
            by rw [hc]; exact List.mem_cons_self _ _, rfl, rfl, rfl, rfl, rfl, ?_⟩
          cases skipIamCheck
          · exact Or.inl rfl
          · exact Or.inr ⟨rfl, rfl⟩
    · cases hex : o.serviceExists with
      | false =>
        have hc : (deployToCloudRun serviceId servicePath revisionName containers
            labels skipIamCheck o).calls =
            [⟨.create, true, ⟨none, revisionName, containers, labels, skipIamCheck⟩⟩] := by
          simp [deployToCloudRun, hdr, hex, hh]
        rw [hc] at hmem
        simp only [List.mem_singleton] at hmem
        subst hmem
        exact absurd hreal (by simp)
      | true =>
        have hc : (deployToCloudRun serviceId servicePath revisionName containers
            labels skipIamCheck o).calls =
            [⟨.update, true,
                ⟨some servicePath, revisionName, containers, labels, skipIamCheck⟩⟩] := by
          simp [deployToCloudRun, hdr, hex, hh]
        rw [hc] at hmem
        simp only [List.mem_singleton] at hmem
        subst hmem
        exact absurd hreal (by simp)

/-- Witness for C10: on the heuristic-fallback path of an existing
service, the real update call's configuration shares the dry-run
configuration's revision. -/
theorem deployToCloudRun_frame_witness :
    ∃ d, d ∈ (deployToCloudRun "svc" "projects/p/locations/r/services/svc" "svc-1"
        [⟨"gcr.io/p/img", none, none, none, none⟩] [("created-by", "cloud-run-mcp")]
        true ⟨true, .error ⟨none, "iam policy violation"⟩,
          .ok ⟨"https://svc.run.app"⟩⟩).calls ∧
      d.validateOnly = true ∧ "svc-1" = d.config.revision := by
  obtain ⟨d, hd1, hd2, hrev, -⟩ :=
    deployToCloudRun_frame "svc" "projects/p/locations/r/services/svc" "svc-1"
      [⟨"gcr.io/p/img", none, none, none, none⟩] [("created-by", "cloud-run-mcp")]
      true ⟨true, .error ⟨none, "iam policy violation"⟩, .ok ⟨"https://svc.run.app"⟩⟩
      ⟨.update, false, ⟨some "projects/p/locations/r/services/svc", "svc-1",
        [⟨"gcr.io/p/img", none, none, none, none⟩],
        [("created-by", "cloud-run-mcp")], false⟩⟩
      (by decide) rfl
  exact ⟨d, hd1, hd2, hrev⟩

/-- Counterexample for C6 as stated: a `deploy` call with projectId and
serviceName present but no `files` array does not reject — with
`process.exit` available (the normal Node environment) it terminates the
process with exit code 1 instead; no remote call is made either way. -/
theorem deploy_validation_counterexample :
    validateDeployParams (some "proj") (some "svc") none true = .exitProcess 1 ∧
    (∀ msg, validateDeployParams (some "proj") (some "svc") none true ≠
      .reject msg) ∧
    (deployEntry (some "proj") (some "svc") none true 5).remoteCalls = 0 ∧
    validateDeployImageParams (some "proj") (some "svc") none true =
      .exitProcess 1 := by
  refine ⟨rfl, ?_, rfl, rfl⟩
  intro msg h
  rw [show validateDeployParams (some "proj") (some "svc") none true =
    .exitProcess 1 from rfl] at h
  cases h

/-- C6 (amended): a `deploy` or `deployImage` call missing `projectId`
or `serviceName` rejects with a validation error; a `deploy` call with
a missing or empty `files` array, and a `deployImage` call missing
`imageUrl`, terminate the process with exit code 1 when `process.exit`
is available and reject only otherwise; in every such case zero remote
client calls are made.  (Models deployer.js lines 254-277 / 823-846 and
519-541 / 1106-1128.) -/
theorem deploy_validation_amended (pid sname iurl : Option String)
    (files : Option (List FileEntry)) (pexit : Bool) (n : Nat) :
    (jsFalsyStr pid = true →
      validateDeployParams pid sname files pexit =
        .reject "Error: projectId is required in the configuration object." ∧
      validateDeployImageParams pid sname iurl pexit =
        .reject "Error: projectId is required in the configuration object.") ∧
    (jsFalsyStr pid = false → jsFalsyStr sname = true →
      validateDeployParams pid sname files pexit =
        .reject "Error: serviceName is required in the configuration object." ∧
      validateDeployImageParams pid sname iurl pexit =
        .reject "Error: serviceName is required in the configuration object.") ∧
    (jsFalsyStr pid = false → jsFalsyStr sname = false → filesInvalid files = true →
      validateDeployParams pid sname files pexit =
        (if pexit then .exitProcess 1
         else .reject "Error: files array is required in the configuration object.")) ∧
    (jsFalsyStr pid = false → jsFalsyStr sname = false → jsFalsyStr iurl = true →
      validateDeployImageParams pid sname iurl pexit =
        (if pexit then .exitProcess 1
         else .reject "Error: imageUrl is required in the configuration object.")) ∧
    ((jsFalsyStr pid = true ∨ jsFalsyStr sname = true ∨ filesInvalid files = true) →
      (deployEntry pid sname files pexit n).remoteCalls = 0) ∧
    ((jsFalsyStr pid = true ∨ jsFalsyStr sname = true ∨ jsFalsyStr iurl = true) →
      (deployImageEntry pid sname iurl pexit n).remoteCalls = 0) := by
  refine ⟨?_, ?_, ?_, ?_, ?_, ?_⟩
  · intro hp
    constructor <;> simp [validateDeployParams, validateDeployImageParams, hp]
  · intro hp hs
    constructor <;> simp [validateDeployParams, validateDeployImageParams, hp, hs]
  · intro hp hs hf
    cases pexit <;> simp [validateDeployParams, hp, hs, hf]
  · intro hp hs hi
    cases pexit <;> simp [validateDeployImageParams, hp, hs, hi]
  · intro h
    rcases h with hp | hs | hf
    · simp [deployEntry, validateDeployParams, hp]
    · cases hp : jsFalsyStr pid <;>
        simp [deployEntry, validateDeployParams, hp, hs]
    · cases hp : jsFalsyStr pid
      · cases hs : jsFalsyStr sname
        · cases pexit <;>
            simp [deployEntry, validateDeployParams, hp, hs, hf]
        · simp [deployEntry, validateDeployParams, hp, hs]
      · simp [deployEntry, validateDeployParams, hp]
  · intro h
    rcases h with hp | hs | hi
    · simp [deployImageEntry, validateDeployImageParams, hp]
    · cases hp : jsFalsyStr pid <;>
        simp [deployImageEntry, validateDeployImageParams, hp, hs]
    · cases hp : jsFalsyStr pid
      · cases hs : jsFalsyStr sname
        · cases pexit <;>
            simp [deployImageEntry, validateDeployImageParams, hp, hs, hi]
        · simp [deployImageEntry, validateDeployImageParams, hp, hs]
      · simp [deployImageEntry, validateDeployImageParams, hp]

/-- Witness for C6 (amended): a missing projectId rejects, and a missing
files array with `process.exit` available exits with code 1; both make
zero remote calls. -/
theorem deploy_validation_amended_witness :
    validateDeployParams none (some "svc") (some [.path "app"]) true =
      .reject "Error: projectId is required in the configuration object." ∧
    validateDeployParams (some "proj") (some "svc") (some []) true =
      .exitProcess 1 ∧
    (deployImageEntry (some "proj") (some "svc") none true 7).remoteCalls = 0 := by
  refine ⟨((deploy_validation_amended none (some "svc") none (some [.path "app"])
    true 7).1 rfl).1, ?_, ?_⟩
  · have h := (deploy_validation_amended (some "proj") (some "svc") none
      (some []) true 7).2.2.1 rfl rfl rfl
    simpa using h
  · exact (deploy_validation_amended (some "proj") (some "svc") none
      (some []) true 7).2.2.2.2.2 (Or.inr (Or.inr rfl))

end CloudRunMCP
